import Mathlib

/-!
Shallow embedding of `src/game/skills/threejs-builder/scripts/
install-gltf-calibration-helpers.py`.

The script copies one bundled asset file to a user-given destination:

* line 26: `src = pathlib.Path(__file__).resolve().parent / "gltf-calibration-helpers.mjs"`
* lines 27-29: if the source does not exist, print an ERR line and return 2
* line 31: `dst = pathlib.Path(args.out).expanduser().resolve()`
* line 32: `dst.parent.mkdir(parents=True, exist_ok=True)`
* lines 34-36: if `dst.exists()` and not `--force`, print an ERR line and return 2
* line 38: `shutil.copyfile(src, dst)`
* lines 39-40: print the OK line and return 0

The filesystem is modelled as a finite map from absolute paths (component
lists) to byte contents, together with a set of existing directories.  The
root directory always exists.  Operations that the Python runtime would turn
into a propagated exception (`mkdir` hitting a regular file on the ancestor
chain, `shutil.copyfile` on a directory or on the same file, which raises
`shutil.SameFileError`) are modelled by returning `none`.
-/

/-- An absolute filesystem path, as its list of components below the root. -/
abbrev FsPath := List String

/-- File contents, as a list of bytes. -/
abbrev Bytes := List Nat

/-- A filesystem snapshot: regular files with their contents, plus the set of
existing directories (the root directory is implicit and always exists). -/
structure FS where
  files : List (FsPath × Bytes)
  dirs : List FsPath
deriving DecidableEq, Repr

/-- Content of the regular file at `p`, if one exists. -/
def FS.lookupFile (fs : FS) (p : FsPath) : Option Bytes :=
  fs.files.lookup p

/-- Whether a regular file exists at `p`. -/
def FS.isFile (fs : FS) (p : FsPath) : Bool :=
  (fs.lookupFile p).isSome

/-- Whether a directory exists at `p`; the root always does. -/
def FS.isDir (fs : FS) (p : FsPath) : Bool :=
  p.isEmpty || fs.dirs.contains p

/-- `Path.exists()` of the Python runtime: a file or a directory is at `p`. -/
def FS.pathExists (fs : FS) (p : FsPath) : Bool :=
  fs.isFile p || fs.isDir p

/-- Write `b` to the regular file at `p`, creating or truncating it. -/
def FS.writeFile (fs : FS) (p : FsPath) (b : Bytes) : FS :=
  { fs with files := (p, b) :: fs.files }

/-- The nonempty initial segments of a path, shallowest first: the chain of
directories that `mkdir(parents=True)` walks. -/
def initSegs (p : FsPath) : List FsPath :=
  (List.range p.length).map (fun i => p.take (i + 1))

/-- Create, in order, each directory of a list, skipping the ones that
already exist; a regular file in the way raises, modelled by `none`. -/
def mkdirList (fs : FS) : List FsPath → Option FS
  | [] => some fs
  | q :: qs =>
    if fs.isFile q then none
    else if fs.isDir q then mkdirList fs qs
    else mkdirList { fs with dirs := q :: fs.dirs } qs

/-- Line 32 of the script, `dst.parent.mkdir(parents=True, exist_ok=True)`,
applied to the parent path `p`: create every missing directory on the chain
down to `p`, succeeding silently on the ones that exist. -/
def FS.mkdirParentsExistOk (fs : FS) (p : FsPath) : Option FS :=
  mkdirList fs (initSegs p)

/-- Line 38 of the script, `shutil.copyfile(src, dst)` with `src` an existing
path: raises `SameFileError` when the two paths coincide, raises when the
source is not a regular file or the destination is a directory, and otherwise
writes the source bytes to the destination. -/
def copyfileOp (fs : FS) (src dst : FsPath) : Option FS :=
  if src = dst then none
  else
    match fs.lookupFile src with
    | none => none
    | some b => if fs.isDir dst then none else some (fs.writeFile dst b)

/-- The `--out` argument before resolution: absolute, relative to the working
directory, or below the home directory (a leading `~`). -/
inductive RawPath where
  | abs (comps : List String)
  | rel (comps : List String)
  | home (comps : List String)
deriving DecidableEq, Repr

/-- One step of `Path.resolve()` normalisation: `.` is dropped, `..` moves to
the parent (staying at the root), any other component descends. -/
def resolveStep (acc : FsPath) (c : String) : FsPath :=
  if c = "." then acc
  else if c = ".." then acc.dropLast
  else acc ++ [c]

/-- Normalise a component list against an absolute base path. -/
def resolvePath (base : FsPath) (comps : List String) : FsPath :=
  comps.foldl resolveStep base

/-- Line 31 of the script, `pathlib.Path(args.out).expanduser().resolve()`:
expand a leading `~` to the home directory, make the path absolute against
the working directory, and normalise. -/
def resolveRaw (cwd home : FsPath) : RawPath → FsPath
  | .abs cs => resolvePath [] cs
  | .rel cs => resolvePath cwd cs
  | .home cs => resolvePath home cs

/-- The ambient process state: the directory holding the script, the working
directory and the home directory, all absolute. -/
structure Env where
  scriptDir : FsPath
  cwd : FsPath
  home : FsPath
deriving DecidableEq, Repr

/-- Line 26 of the script: the fixed source asset path, next to the script. -/
def srcPath (env : Env) : FsPath :=
  env.scriptDir ++ ["gltf-calibration-helpers.mjs"]

/-- Render an absolute path the way Python prints a `pathlib.Path`. -/
def renderPath (p : FsPath) : String :=
  "/" ++ String.intercalate "/" p

/-- Outcome of a completed run of `main`: the returned exit status, the final
filesystem, and the lines written to stdout and stderr. -/
structure RunResult where
  exitCode : Nat
  fs : FS
  stdout : List String
  stderr : List String
deriving DecidableEq, Repr

/-- The `main` function of the script (lines 26-40), after argument parsing:
given the environment, the starting filesystem, the `--out` argument and the
`--force` flag, it either completes with a `RunResult` or propagates a
filesystem exception (`none`). -/
def installMain (env : Env) (fs0 : FS) (out : RawPath) (force : Bool) :
    Option RunResult :=
  if fs0.pathExists (srcPath env) then
    (fs0.mkdirParentsExistOk (resolveRaw env.cwd env.home out).dropLast).bind
      fun fs1 =>
        if fs1.pathExists (resolveRaw env.cwd env.home out) && !force then
          some ⟨2, fs1, [],
            ["[ERR] Destination exists (use --force): " ++
              renderPath (resolveRaw env.cwd env.home out)]⟩
        else
          (copyfileOp fs1 (srcPath env) (resolveRaw env.cwd env.home out)).map
            fun fs2 =>
              ⟨0, fs2,
                ["[OK] Wrote: " ++ renderPath (resolveRaw env.cwd env.home out)], []⟩
  else
    some ⟨2, fs0, [], ["[ERR] Missing source module: " ++ renderPath (srcPath env)]⟩

/-- Iterated runs of the installer with `--force`, keeping the filesystem,
stopping (`none`) as soon as a run raises or exits nonzero. -/
def installIter (env : Env) (out : RawPath) : Nat → FS → Option FS
  | 0, fs => some fs
  | n + 1, fs =>
    (installMain env fs out true).bind fun r =>
      if r.exitCode = 0 then installIter env out n r.fs else none

-- Concrete scenario used by the witnesses below.
def wEnv : Env := ⟨["app"], ["work"], ["home", "u"]⟩

def wSrcBytes : Bytes := [1, 2, 3]

def wFS0 : FS := ⟨[(srcPath wEnv, wSrcBytes)], [["app"]]⟩

/-! ### Basic lemmas about the filesystem model -/

theorem lookupFile_writeFile_self (fs : FS) (p : FsPath) (b : Bytes) :
    (fs.writeFile p b).lookupFile p = some b := by
  simp [FS.writeFile, FS.lookupFile, List.lookup]

theorem lookupFile_writeFile_ne (fs : FS) (p : FsPath) (b : Bytes) (q : FsPath)
    (h : q ≠ p) : (fs.writeFile p b).lookupFile q = fs.lookupFile q := by
  simp [FS.writeFile, FS.lookupFile, List.lookup, beq_eq_false_iff_ne.mpr h]

theorem isDir_writeFile (fs : FS) (p : FsPath) (b : Bytes) (q : FsPath) :
    (fs.writeFile p b).isDir q = fs.isDir q := by
  simp [FS.writeFile, FS.isDir]

theorem isFile_true_of_lookup (fs : FS) (p : FsPath) (b : Bytes)
    (h : fs.lookupFile p = some b) : fs.isFile p = true := by
  simp [FS.isFile, h]

theorem pathExists_true_of_lookup (fs : FS) (p : FsPath) (b : Bytes)
    (h : fs.lookupFile p = some b) : fs.pathExists p = true := by
  simp [FS.pathExists, isFile_true_of_lookup fs p b h]

theorem lookup_eq_none_of_not_pathExists (fs : FS) (p : FsPath)
    (h : fs.pathExists p = false) : fs.lookupFile p = none := by
  have hf : fs.isFile p = false := by
    cases hx : fs.isFile p with
    | true => simp [FS.pathExists, hx] at h
    | false => rfl
  simpa [FS.isFile, Option.isSome_iff_exists] using hf

theorem isDir_eq_false_of_not_pathExists (fs : FS) (p : FsPath)
    (h : fs.pathExists p = false) : fs.isDir p = false := by
  cases hx : fs.isDir p with
  | true => simp [FS.pathExists, hx] at h
  | false => rfl

theorem ne_nil_of_not_pathExists (fs : FS) (p : FsPath)
    (h : fs.pathExists p = false) : p ≠ [] := by
  intro hp
  have := isDir_eq_false_of_not_pathExists fs p h
  simp [FS.isDir, hp] at this

/-! ### Lemmas about `initSegs` -/

theorem mem_initSegs_iff (q p : FsPath) :
    q ∈ initSegs p ↔ ∃ i, i < p.length ∧ q = p.take (i + 1) := by
  simp only [initSegs, List.mem_map, List.mem_range]
  constructor
  · rintro ⟨i, hi, rfl⟩; exact ⟨i, hi, rfl⟩
  · rintro ⟨i, hi, rfl⟩; exact ⟨i, hi, rfl⟩

theorem length_le_of_mem_initSegs (q p : FsPath) (h : q ∈ initSegs p) :
    q.length ≤ p.length := by
  rcases (mem_initSegs_iff q p).1 h with ⟨i, _, rfl⟩
  simp [List.length_take]

theorem not_mem_initSegs_dropLast (p : FsPath) (hp : p ≠ []) :
    p ∉ initSegs p.dropLast := by
  intro hmem
  have hle := length_le_of_mem_initSegs p p.dropLast hmem
  have hlt : p.dropLast.length < p.length := by
    rw [List.length_dropLast]
    have : 0 < p.length := List.length_pos.mpr hp
    omega
  omega

/-! ### Lemmas about `mkdirList` -/

theorem mkdirList_files (qs : List FsPath) (fs fs2 : FS)
    (h : mkdirList fs qs = some fs2) : fs2.files = fs.files := by
  induction qs generalizing fs with
  | nil => simp [mkdirList] at h; rw [h]
  | cons q qs ih =>
    rw [mkdirList] at h
    by_cases hf : fs.isFile q
    · simp [hf] at h
    · simp only [hf, if_false, Bool.false_eq_true] at h
      by_cases hd : fs.isDir q
      · simp only [hd, if_true] at h
        exact ih fs h
      · simp only [hd, if_false, Bool.false_eq_true] at h
        exact ih { fs with dirs := q :: fs.dirs } h

theorem mkdirList_lookupFile (qs : List FsPath) (fs fs2 : FS) (p : FsPath)
    (h : mkdirList fs qs = some fs2) : fs2.lookupFile p = fs.lookupFile p := by
  simp [FS.lookupFile, mkdirList_files qs fs fs2 h]

theorem mkdirList_isFile (qs : List FsPath) (fs fs2 : FS) (p : FsPath)
    (h : mkdirList fs qs = some fs2) : fs2.isFile p = fs.isFile p := by
  simp [FS.isFile, mkdirList_lookupFile qs fs fs2 p h]

theorem mkdirList_isDir_mono (qs : List FsPath) (fs fs2 : FS) (p : FsPath)
    (h : mkdirList fs qs = some fs2) (hd : fs.isDir p = true) :
    fs2.isDir p = true := by
  induction qs generalizing fs with
  | nil => simp [mkdirList] at h; rw [← h]; exact hd
  | cons q qs ih =>
    rw [mkdirList] at h
    by_cases hf : fs.isFile q
    · simp [hf] at h
    · simp only [hf, if_false, Bool.false_eq_true] at h
      by_cases hdq : fs.isDir q
      · simp only [hdq, if_true] at h
        exact ih fs h hd
      · simp only [hdq, if_false, Bool.false_eq_true] at h
        refine ih { fs with dirs := q :: fs.dirs } h ?_
        simp only [FS.isDir] at hd ⊢
        rcases Bool.or_eq_true_iff.1 hd with h1 | h1
        · simp [h1]
        · have hm : p ∈ fs.dirs := by simpa using h1
          simp [hm]

theorem mkdirList_isDir_new (qs : List FsPath) (fs fs2 : FS) (p : FsPath)
    (h : mkdirList fs qs = some fs2) (hd : fs2.isDir p = true) :
    fs.isDir p = true ∨ p ∈ qs := by
  induction qs generalizing fs with
  | nil => simp [mkdirList] at h; left; rw [h]; exact hd
  | cons q qs ih =>
    rw [mkdirList] at h
    by_cases hf : fs.isFile q
    · simp [hf] at h
    · simp only [hf, if_false, Bool.false_eq_true] at h
      by_cases hdq : fs.isDir q
      · simp only [hdq, if_true] at h
        rcases ih fs h with h1 | h1
        · exact Or.inl h1
        · exact Or.inr (List.mem_cons_of_mem q h1)
      · simp only [hdq, if_false, Bool.false_eq_true] at h
        rcases ih { fs with dirs := q :: fs.dirs } h with h1 | h1
        · simp only [FS.isDir, List.contains_cons] at h1
          rcases Bool.or_eq_true_iff.1 h1 with h2 | h2
          · exact Or.inl (by simp [FS.isDir, h2])
          · rcases Bool.or_eq_true_iff.1 h2 with h3 | h3
            · exact Or.inr (by simp [beq_iff_eq.1 h3])
            · have hm : p ∈ fs.dirs := by simpa using h3
              exact Or.inl (by simp [FS.isDir, hm])
        · exact Or.inr (List.mem_cons_of_mem q h1)

theorem mkdirList_mem_isDir (qs : List FsPath) (fs fs2 : FS)
    (h : mkdirList fs qs = some fs2) : ∀ q ∈ qs, fs2.isDir q = true := by
  induction qs generalizing fs with
  | nil => intro q hq; simp at hq
  | cons q qs ih =>
    intro x hx
    rw [mkdirList] at h
    by_cases hf : fs.isFile q
    · simp [hf] at h
    · simp only [hf, if_false, Bool.false_eq_true] at h
      rcases List.mem_cons.1 hx with rfl | hx2
      · by_cases hdq : fs.isDir x
        · simp only [hdq, if_true] at h
          exact mkdirList_isDir_mono qs fs fs2 x h hdq
        · simp only [hdq, if_false, Bool.false_eq_true] at h
          refine mkdirList_isDir_mono qs _ fs2 x h ?_
          simp [FS.isDir]
      · by_cases hdq : fs.isDir q
        · simp only [hdq, if_true] at h
          exact ih fs h x hx2
        · simp only [hdq, if_false, Bool.false_eq_true] at h
          exact ih { fs with dirs := q :: fs.dirs } h x hx2

theorem mkdirList_success (qs : List FsPath) (fs : FS)
    (h : ∀ q ∈ qs, fs.isFile q = false) :
    ∃ fs2, mkdirList fs qs = some fs2 := by
  induction qs generalizing fs with
  | nil => exact ⟨fs, rfl⟩
  | cons q qs ih =>
    rw [mkdirList]
    have hq : fs.isFile q = false := h q (List.mem_cons_self q qs)
    simp only [hq, Bool.false_eq_true, if_false]
    by_cases hdq : fs.isDir q
    · simp only [hdq, if_true]
      exact ih fs (fun x hx => h x (List.mem_cons_of_mem q hx))
    · simp only [hdq, if_false, Bool.false_eq_true]
      refine ih { fs with dirs := q :: fs.dirs } (fun x hx => ?_)
      have := h x (List.mem_cons_of_mem q hx)
      simpa [FS.isFile, FS.lookupFile] using this

theorem mkdirList_of_all_dirs (qs : List FsPath) (fs : FS)
    (h : ∀ q ∈ qs, fs.isFile q = false ∧ fs.isDir q = true) :
    mkdirList fs qs = some fs := by
  induction qs with
  | nil => rfl
  | cons q qs ih =>
    rw [mkdirList]
    rcases h q (List.mem_cons_self q qs) with ⟨hf, hd⟩
    simp only [hf, Bool.false_eq_true, if_false, hd, if_true]
    exact ih (fun x hx => h x (List.mem_cons_of_mem q hx))

theorem mkdirList_no_file (qs : List FsPath) (fs fs2 : FS)
    (h : mkdirList fs qs = some fs2) : ∀ q ∈ qs, fs.isFile q = false := by
  induction qs generalizing fs with
  | nil => intro q hq; simp at hq
  | cons q qs ih =>
    intro x hx
    rw [mkdirList] at h
    by_cases hf : fs.isFile q
    · simp [hf] at h
    · simp only [hf, if_false, Bool.false_eq_true] at h
      rcases List.mem_cons.1 hx with rfl | hx2
      · exact Bool.eq_false_iff.mpr hf
      · by_cases hdq : fs.isDir q
        · simp only [hdq, if_true] at h
          exact ih fs h x hx2
        · simp only [hdq, if_false, Bool.false_eq_true] at h
          have := ih { fs with dirs := q :: fs.dirs } h x hx2
          simpa [FS.isFile, FS.lookupFile] using this

theorem mkdirList_idem (qs : List FsPath) (fs fs2 : FS)
    (h : mkdirList fs qs = some fs2) : mkdirList fs2 qs = some fs2 := by
  refine mkdirList_of_all_dirs qs fs2 (fun q hq => ⟨?_, ?_⟩)
  · rw [mkdirList_isFile qs fs fs2 q h]
    exact mkdirList_no_file qs fs fs2 h q hq
  · exact mkdirList_mem_isDir qs fs fs2 h q hq

theorem pathExists_after_mkdirParents (fs fs2 : FS) (dst : FsPath)
    (hmk : fs.mkdirParentsExistOk dst.dropLast = some fs2)
    (h : fs.pathExists dst = false) : fs2.pathExists dst = false := by
  have hne : dst ≠ [] := ne_nil_of_not_pathExists fs dst h
  have hf : fs2.isFile dst = false := by
    rw [mkdirList_isFile _ fs fs2 dst hmk]
    cases hx : fs.isFile dst with
    | true => simp [FS.pathExists, hx] at h
    | false => rfl
  have hd : fs2.isDir dst = false := by
    cases hx : fs2.isDir dst with
    | true =>
      rcases mkdirList_isDir_new _ fs fs2 dst hmk hx with h1 | h1
      · rw [isDir_eq_false_of_not_pathExists fs dst h] at h1; cases h1
      · exact absurd h1 (not_mem_initSegs_dropLast dst hne)
    | false => rfl
  simp [FS.pathExists, hf, hd]

/-! ### Inversion lemmas about `copyfileOp` and `installMain` -/

theorem copyfileOp_some_inv (fs fs2 : FS) (src dst : FsPath)
    (h : copyfileOp fs src dst = some fs2) :
    ∃ b, src ≠ dst ∧ fs.lookupFile src = some b ∧ fs.isDir dst = false ∧
      fs2 = fs.writeFile dst b := by
  by_cases hsd : src = dst
  · simp [copyfileOp, hsd] at h
  · rw [copyfileOp, if_neg hsd] at h
    cases hlk : fs.lookupFile src with
    | none => rw [hlk] at h; cases h
    | some b =>
      rw [hlk] at h
      by_cases hdir : fs.isDir dst
      · simp [hdir] at h
      · simp only [hdir, Bool.false_eq_true, if_false, Option.some.injEq] at h
        exact ⟨b, hsd, rfl, Bool.eq_false_iff.mpr hdir, h.symm⟩

theorem copyfileOp_write (fs : FS) (src dst : FsPath) (b : Bytes)
    (hne : src ≠ dst) (hlk : fs.lookupFile src = some b)
    (hdir : fs.isDir dst = false) :
    copyfileOp fs src dst = some (fs.writeFile dst b) := by
  rw [copyfileOp, if_neg hne, hlk, hdir]
  simp

theorem installMain_missing_src (env : Env) (fs : FS) (out : RawPath)
    (force : Bool) (hps : fs.pathExists (srcPath env) = false) :
    installMain env fs out force =
      some ⟨2, fs, [], ["[ERR] Missing source module: " ++ renderPath (srcPath env)]⟩ := by
  rw [installMain, if_neg]
  simp [hps]

theorem installMain_mkdir_some (env : Env) (fs : FS) (out : RawPath)
    (force : Bool) (r : RunResult)
    (hps : fs.pathExists (srcPath env) = true)
    (hrun : installMain env fs out force = some r) :
    ∃ fs1,
      fs.mkdirParentsExistOk (resolveRaw env.cwd env.home out).dropLast = some fs1 := by
  rw [installMain, if_pos (by simp [hps])] at hrun
  cases hmk : fs.mkdirParentsExistOk (resolveRaw env.cwd env.home out).dropLast with
  | none => rw [hmk] at hrun; simp at hrun
  | some fs1 => exact ⟨fs1, rfl⟩

theorem installMain_dest_exists (env : Env) (fs : FS) (out : RawPath)
    (c : Bytes) (fs1 : FS)
    (hps : fs.pathExists (srcPath env) = true)
    (hmk : fs.mkdirParentsExistOk (resolveRaw env.cwd env.home out).dropLast = some fs1)
    (hdst : fs.lookupFile (resolveRaw env.cwd env.home out) = some c) :
    installMain env fs out false =
      some ⟨2, fs1, [],
        ["[ERR] Destination exists (use --force): " ++
          renderPath (resolveRaw env.cwd env.home out)]⟩ := by
  rw [installMain, if_pos (by simp [hps]), hmk]
  simp only [Option.some_bind']
  have hex : fs1.pathExists (resolveRaw env.cwd env.home out) = true := by
    refine pathExists_true_of_lookup fs1 _ c ?_
    rw [mkdirList_lookupFile _ fs fs1 _ hmk]
    exact hdst
  rw [if_pos (by simp [hex])]

theorem installMain_copy_run (env : Env) (fs : FS) (out : RawPath)
    (force : Bool) (b : Bytes) (fs1 : FS)
    (hsrc : fs.lookupFile (srcPath env) = some b)
    (hmk : fs.mkdirParentsExistOk (resolveRaw env.cwd env.home out).dropLast = some fs1)
    (hne : srcPath env ≠ resolveRaw env.cwd env.home out)
    (hdir : fs1.isDir (resolveRaw env.cwd env.home out) = false)
    (hskip : (fs1.pathExists (resolveRaw env.cwd env.home out) && !force) = false) :
    installMain env fs out force =
      some ⟨0, fs1.writeFile (resolveRaw env.cwd env.home out) b,
        ["[OK] Wrote: " ++ renderPath (resolveRaw env.cwd env.home out)], []⟩ := by
  have hps : fs.pathExists (srcPath env) = true :=
    pathExists_true_of_lookup fs _ b hsrc
  rw [installMain, if_pos (by simp [hps]), hmk]
  simp only [Option.some_bind']
  rw [if_neg (by simp [hskip])]
  have hlk1 : fs1.lookupFile (srcPath env) = some b := by
    rw [mkdirList_lookupFile _ fs fs1 _ hmk]; exact hsrc
  rw [copyfileOp_write fs1 _ _ b hne hlk1 hdir]
  simp only [Option.map_some']

theorem installMain_exit_zero_inv (env : Env) (fs : FS) (out : RawPath)
    (force : Bool) (r : RunResult)
    (hrun : installMain env fs out force = some r) (hz : r.exitCode = 0) :
    ∃ b fs1, fs.lookupFile (srcPath env) = some b ∧
      fs.mkdirParentsExistOk (resolveRaw env.cwd env.home out).dropLast = some fs1 ∧
      srcPath env ≠ resolveRaw env.cwd env.home out ∧
      r.fs = fs1.writeFile (resolveRaw env.cwd env.home out) b ∧
      r.fs.lookupFile (resolveRaw env.cwd env.home out) = some b ∧
      r.fs.lookupFile (srcPath env) = some b ∧
      r.stdout = ["[OK] Wrote: " ++ renderPath (resolveRaw env.cwd env.home out)] ∧
      r.stderr = [] := by
  cases hps : fs.pathExists (srcPath env) with
  | false =>
    rw [installMain_missing_src env fs out force hps] at hrun
    cases hrun
    simp at hz
  | true =>
    rw [installMain, if_pos (by simp [hps])] at hrun
    cases hmk : fs.mkdirParentsExistOk (resolveRaw env.cwd env.home out).dropLast with
    | none => rw [hmk] at hrun; simp at hrun
    | some fs1 =>
      rw [hmk] at hrun
      simp only [Option.some_bind'] at hrun
      by_cases hc : (fs1.pathExists (resolveRaw env.cwd env.home out) && !force) = true
      · rw [if_pos hc] at hrun
        cases hrun
        simp at hz
      · rw [if_neg hc] at hrun
        cases hcp : copyfileOp fs1 (srcPath env) (resolveRaw env.cwd env.home out) with
        | none => rw [hcp] at hrun; simp at hrun
        | some fs2 =>
          rw [hcp] at hrun
          simp only [Option.map_some'] at hrun
          cases hrun
          rcases copyfileOp_some_inv fs1 fs2 _ _ hcp with ⟨b, hne, hlk, hdir, rfl⟩
          have hlk0 : fs.lookupFile (srcPath env) = some b := by
            rw [← mkdirList_lookupFile _ fs fs1 _ hmk]; exact hlk
          refine ⟨b, fs1, hlk0, rfl, hne, rfl, ?_, ?_, rfl, rfl⟩
          · exact lookupFile_writeFile_self fs1 _ b
          · rw [lookupFile_writeFile_ne fs1 _ b _ hne]
            exact hlk

/-! ### Claim theorems -/

/-- C1: when the bundled source asset exists, the resolved destination does
not already exist, and the filesystem operations succeed (the run completes),
installing without force returns exit status 0, the destination file holds
exactly the source bytes, stdout is the single OK line naming the resolved
destination, and stderr is empty. -/
theorem install_fresh_destination_ok (env : Env) (fs : FS) (out : RawPath)
    (b : Bytes) (r : RunResult)
    (hsrc : fs.lookupFile (srcPath env) = some b)
    (hdst : fs.pathExists (resolveRaw env.cwd env.home out) = false)
    (hrun : installMain env fs out false = some r) :
    r.exitCode = 0 ∧
    r.fs.lookupFile (resolveRaw env.cwd env.home out) = some b ∧
    r.stdout = ["[OK] Wrote: " ++ renderPath (resolveRaw env.cwd env.home out)] ∧
    r.stderr = [] := by
  have hps : fs.pathExists (srcPath env) = true :=
    pathExists_true_of_lookup fs _ b hsrc
  obtain ⟨fs1, hmk⟩ := installMain_mkdir_some env fs out false r hps hrun
  have hex1 := pathExists_after_mkdirParents fs fs1 _ hmk hdst
  have hne : srcPath env ≠ resolveRaw env.cwd env.home out := by
    intro he
    rw [← he, hps] at hdst
    cases hdst
  have hdir := isDir_eq_false_of_not_pathExists fs1 _ hex1
  rw [installMain_copy_run env fs out false b fs1 hsrc hmk hne hdir
    (by simp [hex1])] at hrun
  cases hrun
  exact ⟨rfl, lookupFile_writeFile_self fs1 _ b, rfl, rfl⟩

def wR1 : RunResult :=
  ⟨0, ⟨[(["work", "out.mjs"], wSrcBytes), (srcPath wEnv, wSrcBytes)],
    [["work"], ["app"]]⟩, ["[OK] Wrote: /work/out.mjs"], []⟩

/-- C1 witness: a concrete fresh install into `./out.mjs` under `/work`. -/
theorem install_fresh_destination_ok_witness :
    wR1.exitCode = 0 ∧
    wR1.fs.lookupFile (resolveRaw wEnv.cwd wEnv.home (.rel ["out.mjs"])) =
      some wSrcBytes ∧
    wR1.stdout =
      ["[OK] Wrote: " ++ renderPath (resolveRaw wEnv.cwd wEnv.home (.rel ["out.mjs"]))] ∧
    wR1.stderr = [] :=
  install_fresh_destination_ok wEnv wFS0 (.rel ["out.mjs"]) wSrcBytes wR1
    (by decide) (by decide) (by decide)

/-- C2: when the source asset exists, the destination file already exists,
and force is false, the run exits with status 2, stderr is the single ERR
line naming the resolved destination, the destination bytes are unchanged,
and stdout is empty. -/
theorem install_existing_destination_fails (env : Env) (fs : FS)
    (out : RawPath) (b c : Bytes) (r : RunResult)
    (hsrc : fs.lookupFile (srcPath env) = some b)
    (hdst : fs.lookupFile (resolveRaw env.cwd env.home out) = some c)
    (hrun : installMain env fs out false = some r) :
    r.exitCode = 2 ∧
    r.stderr = ["[ERR] Destination exists (use --force): " ++
      renderPath (resolveRaw env.cwd env.home out)] ∧
    r.fs.lookupFile (resolveRaw env.cwd env.home out) = some c ∧
    r.stdout = [] := by
  have hps : fs.pathExists (srcPath env) = true :=
    pathExists_true_of_lookup fs _ b hsrc
  obtain ⟨fs1, hmk⟩ := installMain_mkdir_some env fs out false r hps hrun
  rw [installMain_dest_exists env fs out c fs1 hps hmk hdst] at hrun
  cases hrun
  refine ⟨rfl, rfl, ?_, rfl⟩
  rw [mkdirList_lookupFile _ fs fs1 _ hmk]
  exact hdst

def wFS2 : FS :=
  ⟨[(srcPath wEnv, wSrcBytes), (["work", "out.mjs"], [9])], [["app"], ["work"]]⟩

def wR2 : RunResult :=
  ⟨2, wFS2, [], ["[ERR] Destination exists (use --force): /work/out.mjs"]⟩

/-- C2 witness: a concrete second install onto an existing `/work/out.mjs`
without force. -/
theorem install_existing_destination_fails_witness :
    wR2.exitCode = 2 ∧
    wR2.stderr = ["[ERR] Destination exists (use --force): " ++
      renderPath (resolveRaw wEnv.cwd wEnv.home (.rel ["out.mjs"]))] ∧
    wR2.fs.lookupFile (resolveRaw wEnv.cwd wEnv.home (.rel ["out.mjs"])) =
      some [9] ∧
    wR2.stdout = [] :=
  install_existing_destination_fails wEnv wFS2 (.rel ["out.mjs"]) wSrcBytes [9]
    wR2 (by decide) (by decide) (by decide)

/-- C3: when the bundled source asset is absent, every invocation completes
with exit status 2, a single ERR line on stderr, an empty stdout, and a
completely unchanged filesystem, for any destination argument and any force
flag. -/
theorem missing_source_asset_fails (env : Env) (fs : FS) (out : RawPath)
    (force : Bool) (hps : fs.pathExists (srcPath env) = false) :
    ∃ r, installMain env fs out force = some r ∧ r.exitCode = 2 ∧
      r.fs = fs ∧ r.stdout = [] ∧
      r.stderr = ["[ERR] Missing source module: " ++ renderPath (srcPath env)] :=
  ⟨_, installMain_missing_src env fs out force hps, rfl, rfl, rfl, rfl⟩

/-- C3 witness: a concrete invocation on a filesystem without the asset. -/
theorem missing_source_asset_fails_witness :
    ∃ r, installMain wEnv ⟨[], [["app"]]⟩ (.rel ["out.mjs"]) false = some r ∧
      r.exitCode = 2 ∧ r.fs = ⟨[], [["app"]]⟩ ∧ r.stdout = [] ∧
      r.stderr = ["[ERR] Missing source module: " ++ renderPath (srcPath wEnv)] :=
  missing_source_asset_fails wEnv ⟨[], [["app"]]⟩ (.rel ["out.mjs"]) false
    (by decide)

/-- C4 counterexample: with the source asset present, a destination that
resolves to the source asset path itself, and force set, the claimed
invocation does not exit with status 0: `shutil.copyfile` raises
`SameFileError`, so the run propagates an exception (`none`). -/
theorem force_overwrite_samefile_raises :
    wFS0.lookupFile (srcPath wEnv) = some wSrcBytes ∧
    wFS0.pathExists
      (resolveRaw wEnv.cwd wEnv.home
        (.abs ["app", "gltf-calibration-helpers.mjs"])) = true ∧
    installMain wEnv wFS0 (.abs ["app", "gltf-calibration-helpers.mjs"]) true =
      none := by
  decide

/-- C4 (amended): when the source asset exists, the destination file already
exists, force is true, and no filesystem operation raises (in particular the
destination does not resolve to the source asset itself), the run exits with
status 0 and the destination bytes equal the source bytes. -/
theorem force_overwrite_succeeds (env : Env) (fs : FS) (out : RawPath)
    (b : Bytes) (r : RunResult)
    (hsrc : fs.lookupFile (srcPath env) = some b)
    (_hdst : fs.pathExists (resolveRaw env.cwd env.home out) = true)
    (hrun : installMain env fs out true = some r) :
    r.exitCode = 0 ∧
    r.fs.lookupFile (resolveRaw env.cwd env.home out) = some b := by
  have hps : fs.pathExists (srcPath env) = true :=
    pathExists_true_of_lookup fs _ b hsrc
  obtain ⟨fs1, hmk⟩ := installMain_mkdir_some env fs out true r hps hrun
  rw [installMain, if_pos (by simp [hps]), hmk] at hrun
  simp only [Option.some_bind'] at hrun
  rw [if_neg (by simp)] at hrun
  cases hcp : copyfileOp fs1 (srcPath env) (resolveRaw env.cwd env.home out) with
  | none => rw [hcp] at hrun; simp at hrun
  | some fs2 =>
    rw [hcp] at hrun
    simp only [Option.map_some'] at hrun
    cases hrun
    rcases copyfileOp_some_inv fs1 fs2 _ _ hcp with ⟨b2, hne, hlk, hdir, rfl⟩
    rw [mkdirList_lookupFile _ fs fs1 _ hmk, hsrc] at hlk
    injection hlk with hb
    subst hb
    exact ⟨rfl, lookupFile_writeFile_self fs1 _ _⟩

def wR4 : RunResult :=
  ⟨0, ⟨[(["work", "out.mjs"], wSrcBytes), (srcPath wEnv, wSrcBytes),
    (["work", "out.mjs"], [9])], [["app"], ["work"]]⟩,
    ["[OK] Wrote: /work/out.mjs"], []⟩

/-- C4 witness: a concrete forced overwrite of an existing `/work/out.mjs`
holding other bytes. -/
theorem force_overwrite_succeeds_witness :
    wR4.exitCode = 0 ∧
    wR4.fs.lookupFile (resolveRaw wEnv.cwd wEnv.home (.rel ["out.mjs"])) =
      some wSrcBytes :=
  force_overwrite_succeeds wEnv wFS2 (.rel ["out.mjs"]) wSrcBytes wR4
    (by decide) (by decide) (by decide)

/-- C5: when the source asset exists, no component of the missing parent
chain of the resolved destination is an existing file, and the destination
itself does not exist, the installer creates every directory on the parent
chain and the install succeeds with exit status 0; moreover the directory
creation is idempotent: running it again on its own output changes nothing
and succeeds silently. -/
theorem mkdir_parent_chain_succeeds (env : Env) (fs : FS) (out : RawPath)
    (b : Bytes)
    (hsrc : fs.lookupFile (srcPath env) = some b)
    (hpar : ∀ q ∈ initSegs (resolveRaw env.cwd env.home out).dropLast,
      fs.isFile q = false)
    (hdst : fs.pathExists (resolveRaw env.cwd env.home out) = false) :
    (∃ r, installMain env fs out false = some r ∧ r.exitCode = 0 ∧
      ∀ q ∈ initSegs (resolveRaw env.cwd env.home out).dropLast,
        r.fs.isDir q = true) ∧
    (∀ (g g2 : FS) (p : FsPath), g.mkdirParentsExistOk p = some g2 →
      g2.mkdirParentsExistOk p = some g2) := by
  constructor
  · have hps : fs.pathExists (srcPath env) = true :=
      pathExists_true_of_lookup fs _ b hsrc
    obtain ⟨fs1, hmk⟩ :=
      mkdirList_success (initSegs (resolveRaw env.cwd env.home out).dropLast) fs hpar
    have hex1 := pathExists_after_mkdirParents fs fs1 _ hmk hdst
    have hne : srcPath env ≠ resolveRaw env.cwd env.home out := by
      intro he
      rw [← he, hps] at hdst
      cases hdst
    have hdir := isDir_eq_false_of_not_pathExists fs1 _ hex1
    refine ⟨_, installMain_copy_run env fs out false b fs1 hsrc hmk hne hdir
      (by simp [hex1]), rfl, ?_⟩
    intro q hq
    rw [isDir_writeFile]
    exact mkdirList_mem_isDir _ fs fs1 hmk q hq
  · intro g g2 p hmk2
    exact mkdirList_idem _ g g2 hmk2

/-- C5 witness: a concrete install into `./a/b/c/out.mjs` where `/work/a`
does not yet exist. -/
theorem mkdir_parent_chain_succeeds_witness :
    (∃ r,
      installMain wEnv wFS0 (.rel ["a", "b", "c", "out.mjs"]) false = some r ∧
      r.exitCode = 0 ∧
      ∀ q ∈ initSegs
        (resolveRaw wEnv.cwd wEnv.home (.rel ["a", "b", "c", "out.mjs"])).dropLast,
        r.fs.isDir q = true) ∧
    (∀ (g g2 : FS) (p : FsPath), g.mkdirParentsExistOk p = some g2 →
      g2.mkdirParentsExistOk p = some g2) :=
  mkdir_parent_chain_succeeds wEnv wFS0 (.rel ["a", "b", "c", "out.mjs"])
    wSrcBytes (by decide) (by decide) (by decide)

/-- C6: with the source asset present, any number of repetitions of a
successful forced install onto the same destination leaves the destination
bytes equal to the source bytes after each successful copy; repeating the
operation never changes the destination content. -/
theorem repeated_force_install_idempotent (env : Env) (out : RawPath)
    (b : Bytes) (n : Nat) (fs fs2 : FS)
    (hsrc : fs.lookupFile (srcPath env) = some b)
    (hiter : installIter env out (n + 1) fs = some fs2) :
    fs2.lookupFile (resolveRaw env.cwd env.home out) = some b := by
  induction n generalizing fs with
  | zero =>
    rw [installIter] at hiter
    cases hr : installMain env fs out true with
    | none => rw [hr] at hiter; simp at hiter
    | some r =>
      rw [hr] at hiter
      simp only [Option.some_bind'] at hiter
      by_cases hz : r.exitCode = 0
      · rw [if_pos hz] at hiter
        rw [installIter] at hiter
        cases hiter
        rcases installMain_exit_zero_inv env fs out true r hr hz with
          ⟨b2, fs1, hlk0, _, _, _, hdst2, _, _, _⟩
        rw [hlk0] at hsrc
        injection hsrc with hb
        rw [← hb]
        exact hdst2
      · rw [if_neg hz] at hiter; cases hiter
  | succ n ih =>
    rw [installIter] at hiter
    cases hr : installMain env fs out true with
    | none => rw [hr] at hiter; simp at hiter
    | some r =>
      rw [hr] at hiter
      simp only [Option.some_bind'] at hiter
      by_cases hz : r.exitCode = 0
      · rw [if_pos hz] at hiter
        rcases installMain_exit_zero_inv env fs out true r hr hz with
          ⟨b2, fs1, hlk0, _, _, _, _, hsrc2, _, _⟩
        rw [hlk0] at hsrc
        injection hsrc with hb
        rw [hb] at hsrc2
        exact ih r.fs hsrc2 hiter
      · rw [if_neg hz] at hiter; cases hiter

def wIter2 : FS :=
  ⟨[(["work", "out.mjs"], wSrcBytes), (["work", "out.mjs"], wSrcBytes),
    (srcPath wEnv, wSrcBytes)], [["work"], ["app"]]⟩

/-- C6 witness: two consecutive forced installs onto `/work/out.mjs`. -/
theorem repeated_force_install_idempotent_witness :
    wIter2.lookupFile (resolveRaw wEnv.cwd wEnv.home (.rel ["out.mjs"])) =
      some wSrcBytes :=
  repeated_force_install_idempotent wEnv (.rel ["out.mjs"]) wSrcBytes 1 wFS0
    wIter2 (by decide) (by decide)

/-- C7: every run of `main` that completes without a propagated filesystem
exception returns exit status 0 or exit status 2; no other code occurs. -/
theorem exit_status_zero_or_two (env : Env) (fs : FS) (out : RawPath)
    (force : Bool) (r : RunResult)
    (hrun : installMain env fs out force = some r) :
    r.exitCode = 0 ∨ r.exitCode = 2 := by
  cases hps : fs.pathExists (srcPath env) with
  | false =>
    rw [installMain_missing_src env fs out force hps] at hrun
    cases hrun
    right
    rfl
  | true =>
    rw [installMain, if_pos (by simp [hps])] at hrun
    cases hmk : fs.mkdirParentsExistOk (resolveRaw env.cwd env.home out).dropLast with
    | none => rw [hmk] at hrun; simp at hrun
    | some fs1 =>
      rw [hmk] at hrun
      simp only [Option.some_bind'] at hrun
      by_cases hc : (fs1.pathExists (resolveRaw env.cwd env.home out) && !force) = true
      · rw [if_pos hc] at hrun
        cases hrun
        right
        rfl
      · rw [if_neg hc] at hrun
        cases hcp : copyfileOp fs1 (srcPath env) (resolveRaw env.cwd env.home out) with
        | none => rw [hcp] at hrun; simp at hrun
        | some fs2 =>
          rw [hcp] at hrun
          simp only [Option.map_some'] at hrun
          cases hrun
          left
          rfl

def wR7 : RunResult :=
  ⟨0, ⟨[(["work", "w7.mjs"], wSrcBytes), (srcPath wEnv, wSrcBytes)],
    [["work"], ["app"]]⟩, ["[OK] Wrote: /work/w7.mjs"], []⟩

/-- C7 witness: a concrete completed run. -/
theorem exit_status_zero_or_two_witness :
    wR7.exitCode = 0 ∨ wR7.exitCode = 2 :=
  exit_status_zero_or_two wEnv wFS0 (.rel ["w7.mjs"]) false wR7 (by decide)

/-- C8: the behaviour of a run depends on the `--out` argument only through
its expanded, resolved absolute form, so every check, directory creation and
copy uses the resolved path; the path in the OK line and in the
already-exists ERR line is the resolved absolute form. -/
theorem destination_resolved_before_use (env : Env) (fs : FS)
    (out out2 : RawPath) (force : Bool) (r : RunResult)
    (hres : resolveRaw env.cwd env.home out = resolveRaw env.cwd env.home out2)
    (hrun : installMain env fs out force = some r) :
    installMain env fs out2 force = some r ∧
    (r.exitCode = 0 →
      r.stdout = ["[OK] Wrote: " ++ renderPath (resolveRaw env.cwd env.home out)]) ∧
    (fs.pathExists (srcPath env) = true → r.exitCode = 2 →
      r.stderr = ["[ERR] Destination exists (use --force): " ++
        renderPath (resolveRaw env.cwd env.home out)]) := by
  refine ⟨?_, ?_, ?_⟩
  · rw [installMain] at hrun ⊢
    rw [← hres]
    exact hrun
  · intro hz
    rcases installMain_exit_zero_inv env fs out force r hrun hz with
      ⟨b, fs1, _, _, _, _, _, _, hout, _⟩
    exact hout
  · intro hps h2
    rw [installMain, if_pos (by simp [hps])] at hrun
    cases hmk : fs.mkdirParentsExistOk (resolveRaw env.cwd env.home out).dropLast with
    | none => rw [hmk] at hrun; simp at hrun
    | some fs1 =>
      rw [hmk] at hrun
      simp only [Option.some_bind'] at hrun
      by_cases hc : (fs1.pathExists (resolveRaw env.cwd env.home out) && !force) = true
      · rw [if_pos hc] at hrun
        cases hrun
        rfl
      · rw [if_neg hc] at hrun
        cases hcp : copyfileOp fs1 (srcPath env) (resolveRaw env.cwd env.home out) with
        | none => rw [hcp] at hrun; simp at hrun
        | some fs2 =>
          rw [hcp] at hrun
          simp only [Option.map_some'] at hrun
          cases hrun
          simp at h2

def wR8 : RunResult :=
  ⟨0, ⟨[(["home", "u", "x.mjs"], wSrcBytes), (srcPath wEnv, wSrcBytes)],
    [["home", "u"], ["home"], ["app"]]⟩, ["[OK] Wrote: /home/u/x.mjs"], []⟩

/-- C8 witness: the home-shorthand destination and the equal absolute
destination run identically, and the OK line carries the resolved path. -/
theorem destination_resolved_before_use_witness :
    installMain wEnv wFS0 (.abs ["home", "u", "x.mjs"]) false = some wR8 ∧
    (wR8.exitCode = 0 →
      wR8.stdout = ["[OK] Wrote: " ++
        renderPath (resolveRaw wEnv.cwd wEnv.home (.home ["x.mjs"]))]) ∧
    (wFS0.pathExists (srcPath wEnv) = true → wR8.exitCode = 2 →
      wR8.stderr = ["[ERR] Destination exists (use --force): " ++
        renderPath (resolveRaw wEnv.cwd wEnv.home (.home ["x.mjs"]))]) :=
  destination_resolved_before_use wEnv wFS0 (.home ["x.mjs"])
    (.abs ["home", "u", "x.mjs"]) false wR8 (by decide) (by decide)

/-- C9: when the source asset exists, the destination file exists and force
is false, the failing run still creates every directory on the parent chain
of the resolved destination: the exit status is 2 and the destination file
is unmodified, but the directories are present in the final filesystem. -/
theorem destination_exists_still_creates_dirs (env : Env) (fs : FS)
    (out : RawPath) (b c : Bytes) (r : RunResult)
    (hsrc : fs.lookupFile (srcPath env) = some b)
    (hdst : fs.lookupFile (resolveRaw env.cwd env.home out) = some c)
    (hrun : installMain env fs out false = some r) :
    r.exitCode = 2 ∧
    r.fs.lookupFile (resolveRaw env.cwd env.home out) = some c ∧
    (∀ q ∈ initSegs (resolveRaw env.cwd env.home out).dropLast,
      r.fs.isDir q = true) := by
  have hps : fs.pathExists (srcPath env) = true :=
    pathExists_true_of_lookup fs _ b hsrc
  obtain ⟨fs1, hmk⟩ := installMain_mkdir_some env fs out false r hps hrun
  rw [installMain_dest_exists env fs out c fs1 hps hmk hdst] at hrun
  cases hrun
  refine ⟨rfl, ?_, ?_⟩
  · rw [mkdirList_lookupFile _ fs fs1 _ hmk]
    exact hdst
  · intro q hq
    exact mkdirList_mem_isDir _ fs fs1 hmk q hq

def wFS9 : FS :=
  ⟨[(srcPath wEnv, wSrcBytes), (["work", "d", "out.mjs"], [7])], [["app"]]⟩

def wR9 : RunResult :=
  ⟨2, ⟨wFS9.files, [["work", "d"], ["work"], ["app"]]⟩, [],
    ["[ERR] Destination exists (use --force): /work/d/out.mjs"]⟩

/-- C9 witness: a failing install onto `/work/d/out.mjs` that still creates
`/work` and `/work/d`. -/
theorem destination_exists_still_creates_dirs_witness :
    wR9.exitCode = 2 ∧
    wR9.fs.lookupFile (resolveRaw wEnv.cwd wEnv.home (.rel ["d", "out.mjs"])) =
      some [7] ∧
    (∀ q ∈ initSegs
      (resolveRaw wEnv.cwd wEnv.home (.rel ["d", "out.mjs"])).dropLast,
      wR9.fs.isDir q = true) :=
  destination_exists_still_creates_dirs wEnv wFS9 (.rel ["d", "out.mjs"])
    wSrcBytes [7] wR9 (by decide) (by decide) (by decide)

/-- C10: when the source asset is absent, the run returns the SourceMissing
result without any destination processing: the outcome is the same for every
destination argument and every force flag, the filesystem is untouched (no
directory is created), and the error is the missing-source one even when the
destination also exists. -/
theorem missing_source_precedence (env : Env) (fs : FS) (out out2 : RawPath)
    (force force2 : Bool)
    (hps : fs.pathExists (srcPath env) = false) :
    installMain env fs out force = installMain env fs out2 force2 ∧
    installMain env fs out force =
      some ⟨2, fs, [], ["[ERR] Missing source module: " ++ renderPath (srcPath env)]⟩ := by
  rw [installMain_missing_src env fs out force hps,
    installMain_missing_src env fs out2 force2 hps]
  exact ⟨rfl, rfl⟩

def wFS10 : FS := ⟨[(["work", "out.mjs"], [5])], [["work"]]⟩

/-- C10 witness: with the asset absent and the destination existing, two
invocations differing in destination and force give the same missing-source
result with an unchanged filesystem. -/
theorem missing_source_precedence_witness :
    installMain wEnv wFS10 (.rel ["out.mjs"]) false =
      installMain wEnv wFS10 (.abs ["z"]) true ∧
    installMain wEnv wFS10 (.rel ["out.mjs"]) false =
      some ⟨2, wFS10, [],
        ["[ERR] Missing source module: " ++ renderPath (srcPath wEnv)]⟩ :=
  missing_source_precedence wEnv wFS10 (.rel ["out.mjs"]) (.abs ["z"]) false
    true (by decide)
